import Mathlib

/-!
Shallow embedding of the yatube blogging platform's feed/follow subsystem
(`posts/models.py`, `posts/forms.py`, `yatube/posts/views.py`).

Records mirror the Django models; the content store is a record of lists.
Each Django view becomes a pure function from the store (plus the request's
data) to a result; `get_object_or_404` becomes an `Option`/`notFound` branch,
redirects carry the named route they resolve, and the queryset ordering
`Meta.ordering = ['-pub_date']` becomes an insertion sort by descending
`pub_date`.
-/

namespace Yatube

/-- A row of the external auth `User` model (id, username). -/
structure UserRec where
  id : Nat
  username : String
deriving DecidableEq, Repr

/-- `posts.Group`: {id, title, slug, description}. -/
structure GroupRec where
  id : Nat
  title : String
  slug : String
  description : String
deriving DecidableEq, Repr

/-- `posts.Post`: text, pub_date (auto), author FK, optional group FK,
optional image (stored file name). -/
structure PostRec where
  id : Nat
  text : String
  pub_date : Nat
  author : Nat
  group : Option Nat
  image : Option String
deriving DecidableEq, Repr

/-- `posts.Comment`: post FK, author FK, text, created (auto). -/
structure CommentRec where
  id : Nat
  post : Nat
  author : Nat
  text : String
  created : Nat
deriving DecidableEq, Repr

/-- `posts.Follow`: directed edge, user follows author. -/
structure FollowRec where
  user : Nat
  author : Nat
deriving DecidableEq, Repr

/-- The content store: one list per table. -/
structure Store where
  users : List UserRec
  groups : List GroupRec
  posts : List PostRec
  comments : List CommentRec
  follows : List FollowRec
deriving DecidableEq, Repr

/-- Named routes used by `redirect(...)` in the views. -/
inductive Route where
  | index : Route
  | profile (username : String) : Route
  | post (username : String) (post_id : Nat) : Route
deriving DecidableEq, Repr

/-- The shapes of responses the embedded views produce. -/
inductive HttpResponse where
  | render (template : String) (status : Nat) (errors : List String) : HttpResponse
  | redirect (target : Route) : HttpResponse
  | notFound : HttpResponse
deriving DecidableEq, Repr

/-- Result of a view that may mutate the store. -/
structure ViewResult where
  store : Store
  response : HttpResponse
deriving DecidableEq, Repr

/-- Does a response re-render a template at HTTP 200? -/
def isRender200 (r : HttpResponse) : Bool :=
  match r with
  | .render _ 200 _ => true
  | _ => false

/-- Descending publish-time order, `Meta.ordering = ['-pub_date']`. -/
def byPubDateDesc (a b : PostRec) : Prop := b.pub_date ≤ a.pub_date

instance : DecidableRel byPubDateDesc := fun a b => Nat.decLe b.pub_date a.pub_date

instance : IsTotal PostRec byPubDateDesc := ⟨fun a b => Nat.le_total b.pub_date a.pub_date⟩

instance : IsTrans PostRec byPubDateDesc := ⟨fun _ _ _ hab hbc => Nat.le_trans hbc hab⟩

/-- Descending creation-time order for comments, `Meta.ordering = ['-created']`. -/
def byCreatedDesc (a b : CommentRec) : Prop := b.created ≤ a.created

instance : DecidableRel byCreatedDesc := fun a b => Nat.decLe b.created a.created

/-- `get_object_or_404(User, username=username)` resolved to an `Option`. -/
def findUser (st : Store) (username : String) : Option UserRec :=
  st.users.find? (fun u => u.username == username)

/-- Number of `Follow` rows with the given `(user, author)` pair. -/
def edgeCount (st : Store) (u a : Nat) : Nat :=
  st.follows.countP (fun f => f.user == u && f.author == a)

/-- Fresh primary key for a new `Post`. -/
def nextPostId (st : Store) : Nat :=
  (st.posts.map PostRec.id).foldr max 0 + 1

/-- Fresh primary key for a new `Comment`. -/
def nextCommentId (st : Store) : Nat :=
  (st.comments.map CommentRec.id).foldr max 0 + 1

/-- One page of a paginated queryset, with the metadata the views put in
the template context (`page.number`, `paginator.num_pages`, `count`). -/
structure Paginated where
  count : Nat
  num_pages : Nat
  number : Nat
  object_list : List PostRec
deriving DecidableEq, Repr

/-- `Paginator.num_pages`: ceil(count / per), but at least 1. -/
def paginatorPages (count per : Nat) : Nat :=
  max 1 ((count + per - 1) / per)

/-- `Paginator.get_page`: an absent or non-integer page parameter gives
page 1, an out-of-range integer gives the last page. -/
def get_page_number (count per : Nat) (req : Option Nat) : Nat :=
  match req with
  | none => 1
  | some n =>
    if n < 1 then paginatorPages count per
    else if paginatorPages count per < n then paginatorPages count per
    else n

/-- `Paginator(qs, per).get_page(req)`: slice the queryset to the resolved
page and package the pagination metadata. -/
def paginate (l : List PostRec) (per : Nat) (req : Option Nat) : Paginated :=
  let pn := get_page_number l.length per req
  { count := l.length
    num_pages := paginatorPages l.length per
    number := pn
    object_list := (l.drop ((pn - 1) * per)).take per }

/-- The unscoped feed queryset: `Post.objects.all()`, ordered by the model
ordering `-pub_date`. -/
def indexQuery (st : Store) : List PostRec :=
  List.insertionSort byPubDateDesc st.posts

/-- The page computed by the `index` view body (before the cache layer). -/
def index_page (st : Store) (req : Option Nat) : Paginated :=
  paginate (indexQuery st) 10 req

/-- The group feed queryset `group.posts.all()`, ordered by `-pub_date`. -/
def groupQuery (st : Store) (g : GroupRec) : List PostRec :=
  List.insertionSort byPubDateDesc
    (st.posts.filter (fun p => p.group == some g.id))

/-- `group_posts` view: 404 when no group carries the slug, otherwise the
group and a page of its posts. -/
def group_posts (st : Store) (slug : String) (req : Option Nat) :
    Option (GroupRec × Paginated) :=
  (st.groups.find? (fun g => g.slug == slug)).map
    (fun g => (g, paginate (groupQuery st g) 10 req))

/-- The follow feed queryset
`Post.objects.filter(author__following__user=request.user)`,
ordered by `-pub_date`. -/
def followQuery (st : Store) (u : Nat) : List PostRec :=
  List.insertionSort byPubDateDesc
    (st.posts.filter (fun p =>
      st.follows.any (fun f => f.user == u && f.author == p.author)))

/-- `follow_index` view: a page of the follow feed of user `u`. -/
def follow_index (st : Store) (u : Nat) (req : Option Nat) : Paginated :=
  paginate (followQuery st u) 10 req

/-- `post_view`: resolve the author by username, then the post by id and
author; 404 when either lookup fails; otherwise the post and its comments
ordered by `-created`. -/
def post_view (st : Store) (username : String) (post_id : Nat) :
    Option (UserRec × PostRec × List CommentRec) :=
  match findUser st username with
  | none => none
  | some author =>
    match st.posts.find? (fun p => p.id == post_id && p.author == author.id) with
    | none => none
    | some p =>
      some (author, p,
        List.insertionSort byCreatedDesc
          (st.comments.filter (fun c => c.post == p.id)))

/-- An uploaded file; `valid_image` records whether it decodes as a valid
raster image (the check `ImageField` runs on the upload). -/
structure UploadedFile where
  name : String
  valid_image : Bool
deriving DecidableEq, Repr

/-- The bound data of a `PostForm`: fields `('group', 'text', 'image')`. -/
structure PostFormData where
  text : String
  group : Option Nat
  image : Option UploadedFile
deriving DecidableEq, Repr

/-- `PostForm.is_valid()`: `text` is a required field, and an uploaded
image must decode as a valid raster image. -/
def postFormValid (d : PostFormData) : Bool :=
  d.text != "" &&
    (match d.image with
     | none => true
     | some f => f.valid_image)

/-- The field-level localized errors a bound invalid `PostForm` renders:
the `required` message configured in `PostForm.Meta.error_messages` and the
stock localized invalid-image message. -/
def postFormErrors (d : PostFormData) : List String :=
  (if d.text == "" then ["Пожалуйста, заполните это поле"] else []) ++
  (match d.image with
   | none => []
   | some f =>
     if f.valid_image then []
     else ["Загрузите правильное изображение. Файл, который вы загрузили, поврежден или не является изображением."])

/-- `CommentForm.is_valid()`: `text` is the single, required field. -/
def commentFormValid (text : String) : Bool := text != ""

/-- `new_post` view. `data = some d` is a POST with bound form data,
`data = none` a GET (unbound form). A valid POST saves a post authored by
the requester and redirects to `index`; otherwise the form is re-rendered. -/
def new_post (st : Store) (requester : Nat) (data : Option PostFormData)
    (now : Nat) : ViewResult :=
  match data with
  | some d =>
    if postFormValid d then
      { store :=
          { st with posts := st.posts ++
              [{ id := nextPostId st, text := d.text, pub_date := now,
                 author := requester, group := d.group,
                 image := d.image.map UploadedFile.name }] }
        response := .redirect .index }
    else
      { store := st
        response := .render "posts/new_post.html" 200 (postFormErrors d) }
  | none =>
    { store := st, response := .render "posts/new_post.html" 200 [] }

/-- `post_edit` view: resolve the author by username (404 if unknown);
a requester other than that author is redirected to the post view before
the post is even fetched; then the post is fetched (404 if absent) and a
valid form updates its `text`, `group` and `image` fields. -/
def post_edit (st : Store) (requester : Nat) (username : String)
    (post_id : Nat) (data : Option PostFormData) : ViewResult :=
  match findUser st username with
  | none => { store := st, response := .notFound }
  | some author =>
    if requester ≠ author.id then
      { store := st, response := .redirect (.post username post_id) }
    else
      match st.posts.find? (fun p => p.id == post_id && p.author == author.id) with
      | none => { store := st, response := .notFound }
      | some _ =>
        match data with
        | some d =>
          if postFormValid d then
            { store :=
                { st with posts := st.posts.map (fun q =>
                    if q.id == post_id && q.author == author.id then
                      { q with
                        text := d.text
                        group := d.group
                        image :=
                          (match d.image with
                           | some f => some f.name
                           | none => q.image) }
                    else q) }
              response := .redirect (.post username post_id) }
          else
            { store := st
              response := .render "posts/new_post.html" 200 (postFormErrors d) }
        | none =>
          { store := st, response := .render "posts/new_post.html" 200 [] }

/-- `add_comment` view: 404 when no post has the id and an author with the
username; a valid comment is saved; valid or not, the response is a
redirect to the post view. -/
def add_comment (st : Store) (requester : Nat) (username : String)
    (post_id : Nat) (text : String) (now : Nat) : ViewResult :=
  match st.posts.find? (fun p => p.id == post_id &&
      st.users.any (fun u => u.id == p.author && u.username == username)) with
  | none => { store := st, response := .notFound }
  | some p =>
    if commentFormValid text then
      { store :=
          { st with comments := st.comments ++
              [{ id := nextCommentId st, post := p.id, author := requester,
                 text := text, created := now }] }
        response := .redirect (.post username post_id) }
    else
      { store := st, response := .redirect (.post username post_id) }

/-- `profile_follow` view: resolve the author by username (404 if unknown);
unless the requester is that author, `get_or_create` the edge; always
redirect to the profile. -/
def profile_follow (st : Store) (requester : Nat) (username : String) :
    ViewResult :=
  match findUser st username with
  | none => { store := st, response := .notFound }
  | some author =>
    if requester ≠ author.id then
      if st.follows.any (fun f => f.user == requester && f.author == author.id) then
        { store := st, response := .redirect (.profile username) }
      else
        { store := { st with follows := st.follows ++ [⟨requester, author.id⟩] }
          response := .redirect (.profile username) }
    else
      { store := st, response := .redirect (.profile username) }

/-- `profile_unfollow` view: resolve the author by username (404 if
unknown); delete every matching edge; always redirect to the profile. -/
def profile_unfollow (st : Store) (requester : Nat) (username : String) :
    ViewResult :=
  match findUser st username with
  | none => { store := st, response := .notFound }
  | some author =>
    { store :=
        { st with follows := st.follows.filter (fun f =>
            !(f.user == requester && f.author == author.id)) }
      response := .redirect (.profile username) }

/-- A page-cache entry: the time it was stored and the cached page. -/
structure CacheEntry where
  stored_at : Nat
  value : Paginated
deriving DecidableEq, Repr

/-- The store together with the page cache of the `index` view, keyed by
the page path (here: the page query parameter of `/`). -/
structure CachedState where
  store : Store
  cache : List (Option Nat × CacheEntry)
deriving DecidableEq, Repr

/-- Look a key up in the page cache. -/
def cacheLookup (c : List (Option Nat × CacheEntry)) (k : Option Nat) :
    Option CacheEntry :=
  (c.find? (fun e => e.1 == k)).map Prod.snd

/-- Store an entry under a key in the page cache. -/
def cacheSet (c : List (Option Nat × CacheEntry)) (k : Option Nat)
    (e : CacheEntry) : List (Option Nat × CacheEntry) :=
  (k, e) :: c.filter (fun x => !(x.1 == k))

/-- The `index` view under `@cache_page(20)`: a cache entry younger than
20 time units is served as-is; otherwise the page is recomputed from the
store and cached at the current time. -/
def index (cs : CachedState) (req : Option Nat) (now : Nat) :
    Paginated × CachedState :=
  match cacheLookup cs.cache req with
  | some e =>
    if now < e.stored_at + 20 then (e.value, cs)
    else
      let pg := index_page cs.store req
      (pg, { cs with cache := cacheSet cs.cache req ⟨now, pg⟩ })
  | none =>
    let pg := index_page cs.store req
    (pg, { cs with cache := cacheSet cs.cache req ⟨now, pg⟩ })

/-- `new_post` in the cached system: the view writes the store and leaves
the page cache untouched (no view performs cache invalidation). -/
def new_post_cached (cs : CachedState) (requester : Nat)
    (data : Option PostFormData) (now : Nat) : HttpResponse × CachedState :=
  let r := new_post cs.store requester data now
  (r.response, { store := r.store, cache := cs.cache })

/-- The pagination contract of a feed page: page size 10 (the page holds
`min 10 remaining` posts), descending publish-time order, and consistent
metadata (`number` within range, `num_pages` the right page total). -/
def PageOk (pg : Paginated) : Prop :=
  pg.object_list.length = min 10 (pg.count - (pg.number - 1) * 10) ∧
  List.Sorted byPubDateDesc pg.object_list ∧
  1 ≤ pg.number ∧ pg.number ≤ pg.num_pages ∧
  pg.count ≤ 10 * pg.num_pages ∧
  10 * (pg.num_pages - 1) < max 1 pg.count

/-- Fixture user alice. -/
def aliceW : UserRec := ⟨1, "alice"⟩

/-- Fixture user bob. -/
def bobW : UserRec := ⟨2, "bob"⟩

/-- Fixture post authored by bob. -/
def postW : PostRec := ⟨1, "hello", 5, 2, some 1, none⟩

/-- Fixture store: alice follows bob, bob has one post in one group. -/
def stW : Store :=
  ⟨[aliceW, bobW], [⟨1, "Group", "g", "d"⟩], [postW], [], [⟨1, 2⟩]⟩

/-- Fixture store with an empty follow graph. -/
def stNF : Store := ⟨[aliceW, bobW], [], [postW], [], []⟩

/-- Fixture cache entry holding an empty page stored at time 0. -/
def entryW : CacheEntry := ⟨0, ⟨0, 1, 1, []⟩⟩

/-- Fixture cached state: `stW` with `entryW` cached for the default page. -/
def csW : CachedState := ⟨stW, [(none, entryW)]⟩

/-- Fixture invalid post form data: empty required text. -/
def dInv : PostFormData := ⟨"", none, none⟩

-- Theorems ------------------------------------------------------------

theorem followEdge_any_iff (l : List FollowRec) (u a : Nat) :
    (l.any (fun f => f.user == u && f.author == a) = true) ↔
      FollowRec.mk u a ∈ l := by
  rw [List.any_eq_true]
  constructor
  · rintro ⟨f, hf, hp⟩
    simp only [Bool.and_eq_true, beq_iff_eq] at hp
    obtain ⟨h1, h2⟩ := hp
    cases f
    simp only at h1 h2
    subst h1; subst h2
    exact hf
  · intro h
    exact ⟨_, h, by simp⟩

/-- C1: the follow feed of user U contains exactly the posts whose author
is in U's follow set, is sorted by publish time descending, and is the
empty list (not an error) when U follows no one. -/
theorem C1_follow_feed_exact (st : Store) (u : Nat) :
    (∀ p : PostRec, p ∈ followQuery st u ↔
        p ∈ st.posts ∧ FollowRec.mk u p.author ∈ st.follows) ∧
    List.Sorted byPubDateDesc (followQuery st u) ∧
    ((∀ f ∈ st.follows, f.user ≠ u) → followQuery st u = []) := by
  refine ⟨?_, ?_, ?_⟩
  · intro p
    unfold followQuery
    rw [List.mem_insertionSort, List.mem_filter, followEdge_any_iff]
  · exact List.sorted_insertionSort _ _
  · intro h
    unfold followQuery
    have hnil : st.posts.filter (fun p =>
        st.follows.any (fun f => f.user == u && f.author == p.author)) = [] := by
      rw [List.filter_eq_nil_iff]
      intro p _
      rw [Bool.not_eq_true, List.any_eq_false]
      intro f hf
      simp only [Bool.and_eq_true, beq_iff_eq, not_and]
      intro h1 _
      exact h f hf h1
    rw [hnil]
    rfl

theorem C1_witness : followQuery stNF 1 = [] :=
  (C1_follow_feed_exact stNF 1).2.2 (by decide)

/-- C2: following is idempotent. When A ≠ B, B's username resolves, and
the store respects the `unique_together` constraint, a second
`profile_follow` call changes nothing, leaves exactly one (A, B) edge,
and still answers with a redirect to B's profile. -/
theorem C2_follow_idempotent (st : Store) (a b : UserRec)
    (hab : a.id ≠ b.id) (hb : findUser st b.username = some b)
    (huniq : edgeCount st a.id b.id ≤ 1) :
    (profile_follow (profile_follow st a.id b.username).store a.id b.username).store
      = (profile_follow st a.id b.username).store ∧
    edgeCount (profile_follow st a.id b.username).store a.id b.id = 1 ∧
    (profile_follow (profile_follow st a.id b.username).store a.id b.username).response
      = .redirect (.profile b.username) := by
  by_cases hany :
      st.follows.any (fun f => f.user == a.id && f.author == b.id) = true
  · have h1 : profile_follow st a.id b.username =
        { store := st, response := .redirect (.profile b.username) } := by
      simp [profile_follow, hb, hab, hany]
    rw [h1]
    refine ⟨by rw [h1], ?_, by rw [h1]⟩
    show edgeCount st a.id b.id = 1
    have hpos : 0 < edgeCount st a.id b.id := by
      rw [edgeCount, List.countP_pos_iff]
      rw [List.any_eq_true] at hany
      exact hany
    omega
  · rw [Bool.not_eq_true] at hany
    have h1 : profile_follow st a.id b.username =
        { store := { st with follows := st.follows ++ [⟨a.id, b.id⟩] }
          response := .redirect (.profile b.username) } := by
      simp only [profile_follow, hb]
      simp [hab, hany]
    have hb2 : findUser { st with follows := st.follows ++ [⟨a.id, b.id⟩] }
        b.username = some b := hb
    have hany2 : ({ st with follows := st.follows ++ [⟨a.id, b.id⟩] } : Store).follows.any
        (fun f => f.user == a.id && f.author == b.id) = true := by
      rw [followEdge_any_iff]
      simp
    have h2 : profile_follow
        ({ st with follows := st.follows ++ [⟨a.id, b.id⟩] } : Store) a.id b.username =
        { store := { st with follows := st.follows ++ [⟨a.id, b.id⟩] }
          response := .redirect (.profile b.username) } := by
      simp [profile_follow, hb2, hab, hany2]
    rw [h1]
    refine ⟨by rw [h2], ?_, by rw [h2]⟩
    show edgeCount { st with follows := st.follows ++ [⟨a.id, b.id⟩] } a.id b.id = 1
    have hzero : st.follows.countP (fun f => f.user == a.id && f.author == b.id) = 0 := by
      rw [List.countP_eq_zero]
      rw [List.any_eq_false] at hany
      exact hany
    simp only [edgeCount, List.countP_append, hzero]
    simp

theorem C2_witness :
    (profile_follow (profile_follow stNF 1 "bob").store 1 "bob").store
      = (profile_follow stNF 1 "bob").store ∧
    edgeCount (profile_follow stNF 1 "bob").store 1 2 = 1 ∧
    (profile_follow (profile_follow stNF 1 "bob").store 1 "bob").response
      = .redirect (.profile "bob") :=
  C2_follow_idempotent stNF aliceW bobW (by decide) (by decide) (by decide)

theorem profile_follow_follows (st : Store) (r : Nat) (un : String) :
    (profile_follow st r un).store.follows = st.follows ∨
    (∃ author : UserRec, findUser st un = some author ∧ r ≠ author.id ∧
      (profile_follow st r un).store.follows
        = st.follows ++ [FollowRec.mk r author.id]) := by
  unfold profile_follow
  cases hfind : findUser st un with
  | none => left; rfl
  | some author =>
    by_cases hr : r ≠ author.id
    · by_cases hany :
          st.follows.any (fun f => f.user == r && f.author == author.id) = true
      · left; simp [hr, hany]
      · right
        refine ⟨author, rfl, hr, ?_⟩
        rw [Bool.not_eq_true] at hany
        simp [hr, hany]
    · left; simp [hr]

/-- C3: a self-follow request is a silent no-op: the store is unchanged
and the response still redirects to the profile; moreover `profile_follow`
never creates an edge with `user = author`, so the no-self-edge invariant
is preserved. -/
theorem C3_no_self_follow (st : Store) (a : UserRec)
    (ha : findUser st a.username = some a) :
    (profile_follow st a.id a.username).store = st ∧
    (profile_follow st a.id a.username).response
      = .redirect (.profile a.username) ∧
    (∀ requester username,
      (∀ f ∈ st.follows, f.user ≠ f.author) →
      ∀ f ∈ (profile_follow st requester username).store.follows,
        f.user ≠ f.author) := by
  refine ⟨by simp [profile_follow, ha], by simp [profile_follow, ha], ?_⟩
  intro r un hinv f hf
  rcases profile_follow_follows st r un with h | ⟨author, _, hr, h⟩
  · rw [h] at hf
    exact hinv f hf
  · rw [h] at hf
    rcases List.mem_append.mp hf with hf | hf
    · exact hinv f hf
    · rw [List.mem_singleton] at hf
      subst hf
      simpa using hr

theorem C3_witness :
    (profile_follow stW 1 "alice").store = stW ∧
    (profile_follow stW 1 "alice").response = .redirect (.profile "alice") :=
  ⟨(C3_no_self_follow stW aliceW (by decide)).1,
   (C3_no_self_follow stW aliceW (by decide)).2.1⟩

/-- C4: for an existing target, unfollowing without an existing edge
leaves the store unchanged and still redirects to the target's profile;
and after `profile_unfollow` the edge is gone in every case. -/
theorem C4_unfollow_noop (st : Store) (u : Nat) (t : UserRec)
    (ht : findUser st t.username = some t) :
    ((FollowRec.mk u t.id ∉ st.follows) →
      (profile_unfollow st u t.username).store = st) ∧
    (profile_unfollow st u t.username).response
      = .redirect (.profile t.username) ∧
    FollowRec.mk u t.id ∉ (profile_unfollow st u t.username).store.follows := by
  refine ⟨?_, by simp [profile_unfollow, ht], ?_⟩
  · intro hnot
    have hfil : st.follows.filter
        (fun f => !(f.user == u && f.author == t.id)) = st.follows := by
      rw [List.filter_eq_self]
      intro f hf
      cases f with
      | mk fu fa =>
        by_cases h1 : fu = u
        · by_cases h2 : fa = t.id
          · subst h1; subst h2
            exact absurd hf hnot
          · simp [h2]
        · simp [h1]
    simp only [profile_unfollow, ht]
    rw [hfil]
  · simp only [profile_unfollow, ht]
    intro hmem
    have := (List.mem_filter.mp hmem).2
    simp at this

theorem C4_witness :
    (profile_unfollow stW 2 "alice").store = stW ∧
    (profile_unfollow stW 2 "alice").response = .redirect (.profile "alice") :=
  ⟨(C4_unfollow_noop stW 2 aliceW (by decide)).1 (by decide),
   (C4_unfollow_noop stW 2 aliceW (by decide)).2.1⟩

/-- C5: the group feed 404s exactly when no group has the slug (otherwise
it serves that group's posts), and the single-post view 404s exactly when
the username is unknown or that user has no post with the id. -/
theorem C5_lookup_404 (st : Store) (slug username : String) (pid : Nat)
    (req : Option Nat) (hnd : (st.users.map UserRec.username).Nodup) :
    ((group_posts st slug req).isNone = true ↔
      ¬∃ g ∈ st.groups, g.slug = slug) ∧
    ((post_view st username pid).isNone = true ↔
      ((¬∃ u ∈ st.users, u.username = username) ∨
       (∃ u ∈ st.users, u.username = username ∧
         ¬∃ p ∈ st.posts, p.id = pid ∧ p.author = u.id))) ∧
    (∀ g pg, group_posts st slug req = some (g, pg) →
      g ∈ st.groups ∧ g.slug = slug ∧
      ∀ p : PostRec, p ∈ groupQuery st g ↔
        p ∈ st.posts ∧ p.group = some g.id) := by
  refine ⟨?_, ?_, ?_⟩
  · unfold group_posts
    cases hfind : st.groups.find? (fun g => g.slug == slug) with
    | none =>
      rw [List.find?_eq_none] at hfind
      simp only [Option.map_none', Option.isNone_none, true_iff]
      rintro ⟨g, hg, hslug⟩
      exact hfind g hg (by simp [hslug])
    | some g =>
      simp only [Option.map_some', Option.isNone_some, Bool.false_eq_true,
        false_iff, not_not]
      exact ⟨g, List.mem_of_find?_eq_some hfind,
        by simpa using List.find?_some hfind⟩
  · unfold post_view
    cases hfind : findUser st username with
    | none =>
      unfold findUser at hfind
      rw [List.find?_eq_none] at hfind
      simp only [Option.isNone_none, true_iff]
      left
      rintro ⟨u, hu, huname⟩
      exact hfind u hu (by simp [huname])
    | some a =>
      have hamem : a ∈ st.users := List.mem_of_find?_eq_some hfind
      have haname : a.username = username := by
        simpa using List.find?_some hfind
      dsimp only
      split
      next hpfind =>
        rw [List.find?_eq_none] at hpfind
        simp only [Option.isNone_none, true_iff]
        right
        refine ⟨a, hamem, haname, ?_⟩
        rintro ⟨p, hp, hpid, hpauthor⟩
        exact hpfind p hp (by simp [hpid, hpauthor])
      next p hpfind =>
        have hpmem : p ∈ st.posts := List.mem_of_find?_eq_some hpfind
        have hpprop : p.id = pid ∧ p.author = a.id := by
          simpa using List.find?_some hpfind
        simp only [Option.isNone_some, Bool.false_eq_true, false_iff,
          not_or, not_not]
        constructor
        · exact ⟨a, hamem, haname⟩
        · rintro ⟨u, hu, huname, hnopost⟩
          have : u = a :=
            List.inj_on_of_nodup_map hnd hu hamem (by rw [huname, haname])
          subst this
          exact hnopost ⟨p, hpmem, hpprop⟩
  · intro g pg hsome
    unfold group_posts at hsome
    cases hfind : st.groups.find? (fun x => x.slug == slug) with
    | none => rw [hfind] at hsome; simp at hsome
    | some g0 =>
      rw [hfind] at hsome
      simp only [Option.map_some', Option.some_inj] at hsome
      have hg : g = g0 := by
        have := congrArg Prod.fst hsome
        exact this.symm
      subst hg
      refine ⟨List.mem_of_find?_eq_some hfind,
        by simpa using List.find?_some hfind, ?_⟩
      intro p
      unfold groupQuery
      rw [List.mem_insertionSort, List.mem_filter]
      simp

theorem C5_witness :
    (group_posts stW "nope" none).isNone = true ∧
    (post_view stW "bob" 1).isNone = false :=
  ⟨((C5_lookup_404 stW "nope" "bob" 1 none (by decide)).1).mpr (by decide),
   by
    have h := (C5_lookup_404 stW "nope" "bob" 1 none (by decide)).2.1
    cases hv : (post_view stW "bob" 1).isNone with
    | false => rfl
    | true =>
      exact absurd (h.mp hv) (by decide)⟩

/-- C6 counterexample: at a concrete store, an empty (invalid) comment
submission is answered with a redirect, not a re-rendered form at
HTTP 200, refuting the claim's comment case; no comment row is created. -/
theorem C6_counterexample :
    commentFormValid "" = false ∧
    isRender200 (add_comment stW 1 "bob" 1 "" 7).response = false ∧
    (add_comment stW 1 "bob" 1 "" 7).store = stW := by decide

/-- C6 (amended): an invalid post form submission (empty required text or
an upload that is not a valid raster image) re-renders the form at
HTTP 200 with a non-empty field-level localized error and creates no row;
an invalid (empty) comment submission also creates no row, but is answered
with a redirect to the post view (or 404 for an unknown post), not a
re-rendered form. -/
theorem C6_invalid_forms (st : Store) (r : Nat) (d : PostFormData)
    (now : Nat) (username : String) (pid : Nat) (t : String)
    (hd : postFormValid d = false) (ht : commentFormValid t = false) :
    ((new_post st r (some d) now).store = st ∧
     (new_post st r (some d) now).response
       = .render "posts/new_post.html" 200 (postFormErrors d) ∧
     postFormErrors d ≠ []) ∧
    ((add_comment st r username pid t now).store = st ∧
     ((add_comment st r username pid t now).response = .notFound ∨
      (add_comment st r username pid t now).response
        = .redirect (.post username pid))) := by
  have herr : postFormErrors d ≠ [] := by
    unfold postFormValid at hd
    rw [Bool.and_eq_false_iff] at hd
    unfold postFormErrors
    rcases hd with hd | hd
    · have hd' : (d.text == "") = true := by
        cases h : d.text == "" with
        | true => rfl
        | false => rw [bne, h] at hd; simp at hd
      simp [hd']
    · cases himg : d.image with
      | none => rw [himg] at hd; simp at hd
      | some f =>
        rw [himg] at hd
        simp only at hd
        simp [himg, hd]
  constructor
  · exact ⟨by simp [new_post, hd], by simp [new_post, hd], herr⟩
  · unfold add_comment
    split
    · exact ⟨rfl, Or.inl rfl⟩
    · rw [ht]
      exact ⟨by simp, Or.inr (by simp)⟩

theorem C6_witness :
    (new_post stW 1 (some dInv) 7).store = stW ∧
    (new_post stW 1 (some dInv) 7).response
      = .render "posts/new_post.html" 200 (postFormErrors dInv) ∧
    postFormErrors dInv ≠ [] :=
  (C6_invalid_forms stW 1 dInv 7 "bob" 1 "" (by decide) (by decide)).1

/-- C7: an authenticated requester who is not the author named in the edit
URL is redirected to the post read view, on GET and POST alike, and the
store (hence the targeted post's text, group and image) is unchanged. -/
theorem C7_edit_nonowner (st : Store) (requester : Nat) (author : UserRec)
    (pid : Nat) (data : Option PostFormData)
    (ha : findUser st author.username = some author)
    (hne : requester ≠ author.id) :
    (post_edit st requester author.username pid data).store = st ∧
    (post_edit st requester author.username pid data).response
      = .redirect (.post author.username pid) := by
  constructor <;> simp [post_edit, ha, hne]

theorem C7_witness :
    (post_edit stW 2 "alice" 1 none).store = stW ∧
    (post_edit stW 2 "alice" 1 none).response = .redirect (.post "alice" 1) :=
  C7_edit_nonowner stW 2 aliceW 1 none (by decide) (by decide)

theorem paginate_pageOk (l : List PostRec) (req : Option Nat)
    (hs : List.Sorted byPubDateDesc l) : PageOk (paginate l 10 req) := by
  have hlen : ((l.drop ((get_page_number l.length 10 req - 1) * 10)).take 10).length
      = min 10 (l.length - (get_page_number l.length 10 req - 1) * 10) := by
    rw [List.length_take, List.length_drop]
  have hsorted : List.Sorted byPubDateDesc
      ((l.drop ((get_page_number l.length 10 req - 1) * 10)).take 10) :=
    List.Pairwise.sublist
      ((List.take_sublist _ _).trans (List.drop_sublist _ _)) hs
  have hbounds : 1 ≤ get_page_number l.length 10 req ∧
      get_page_number l.length 10 req ≤ paginatorPages l.length 10 := by
    cases req with
    | none =>
      unfold get_page_number paginatorPages
      dsimp only
      constructor <;> omega
    | some n =>
      unfold get_page_number paginatorPages
      dsimp only
      constructor <;> (split_ifs <;> omega)
  have hcount : l.length ≤ 10 * paginatorPages l.length 10 ∧
      10 * (paginatorPages l.length 10 - 1) < max 1 l.length := by
    unfold paginatorPages
    omega
  exact ⟨hlen, hsorted, hbounds.1, hbounds.2, hcount.1, hcount.2⟩

/-- C8: the unscoped feed, the group feed and the follow feed all satisfy
the pagination contract `PageOk`: pages of `min 10 remaining` posts in
descending publish-time order, with in-range page number and a page total
covering exactly the collection. -/
theorem C8_feeds_paginated (st : Store) (req : Option Nat) (u : Nat)
    (slug : String) :
    PageOk (index_page st req) ∧
    PageOk (follow_index st u req) ∧
    (∀ g pg, group_posts st slug req = some (g, pg) → PageOk pg) := by
  refine ⟨paginate_pageOk _ _ (List.sorted_insertionSort _ _),
          paginate_pageOk _ _ (List.sorted_insertionSort _ _), ?_⟩
  intro g pg hsome
  unfold group_posts at hsome
  cases hfind : st.groups.find? (fun x => x.slug == slug) with
  | none => rw [hfind] at hsome; simp at hsome
  | some g0 =>
    rw [hfind] at hsome
    simp only [Option.map_some', Option.some_inj] at hsome
    have hpg : paginate (groupQuery st g0) 10 req = pg :=
      congrArg Prod.snd hsome
    rw [← hpg]
    exact paginate_pageOk _ _ (List.sorted_insertionSort _ _)

theorem C8_witness :
    PageOk (index_page stW none) ∧ PageOk (follow_index stW 1 none) :=
  ⟨(C8_feeds_paginated stW none 1 "g").1,
   (C8_feeds_paginated stW none 1 "g").2.1⟩

theorem cacheLookup_set (c : List (Option Nat × CacheEntry))
    (k : Option Nat) (e : CacheEntry) :
    cacheLookup (cacheSet c k e) k = some e := by
  unfold cacheLookup cacheSet
  rw [List.find?_cons_of_pos _ (by simp)]
  rfl

/-- C9: while a cache entry for the page is younger than 20 time units the
`index` view serves it verbatim (so a newer post absent from the entry is
absent from the response) and stores nothing; once the entry has expired
(or none exists) the view serves the page freshly computed from the store,
whose queryset holds every current post, and re-caches it at the current
time; writes such as `new_post` never invalidate the cache. -/
theorem C9_index_cache (cs : CachedState) (req : Option Nat) (now : Nat)
    (e : CacheEntry) (r : Nat) (d : Option PostFormData) (t : Nat) :
    (cacheLookup cs.cache req = some e → now < e.stored_at + 20 →
      (index cs req now).1 = e.value ∧ (index cs req now).2 = cs) ∧
    ((∀ e2, cacheLookup cs.cache req = some e2 → e2.stored_at + 20 ≤ now) →
      (index cs req now).1 = index_page cs.store req ∧
      cacheLookup (index cs req now).2.cache req
        = some ⟨now, index_page cs.store req⟩ ∧
      (∀ p, p ∈ cs.store.posts → p ∈ indexQuery cs.store)) ∧
    (new_post_cached cs r d t).2.cache = cs.cache := by
  refine ⟨?_, ?_, rfl⟩
  · intro h hfresh
    unfold index
    rw [h]
    dsimp only
    rw [if_pos hfresh]
    exact ⟨rfl, rfl⟩
  · intro hstale
    have hmem : ∀ p, p ∈ cs.store.posts → p ∈ indexQuery cs.store := by
      intro p hp
      unfold indexQuery
      rw [List.mem_insertionSort]
      exact hp
    cases hc : cacheLookup cs.cache req with
    | none =>
      unfold index
      rw [hc]
      exact ⟨rfl, cacheLookup_set _ _ _, hmem⟩
    | some e2 =>
      have hexp : ¬now < e2.stored_at + 20 :=
        Nat.not_lt.mpr (hstale e2 hc)
      unfold index
      rw [hc]
      dsimp only
      rw [if_neg hexp]
      exact ⟨rfl, cacheLookup_set _ _ _, hmem⟩

theorem C9_witness :
    (index csW none 5).1 = entryW.value ∧ (index csW none 5).2 = csW :=
  (C9_index_cache csW none 5 entryW 0 none 0).1 (by decide) (by decide)

/-- C10: in `post_edit` the ownership check precedes the existence check:
for an existing username, a non-owner is redirected to the post view even
when the post id does not exist, while the owner observes a 404 for a
nonexistent post id. -/
theorem C10_edit_order (st : Store) (requester : Nat) (author : UserRec)
    (pid : Nat) (data : Option PostFormData)
    (ha : findUser st author.username = some author)
    (hnopost : ¬∃ p ∈ st.posts, p.id = pid ∧ p.author = author.id) :
    (requester ≠ author.id →
      (post_edit st requester author.username pid data).response
        = .redirect (.post author.username pid)) ∧
    (requester = author.id →
      (post_edit st requester author.username pid data).response
        = .notFound) := by
  have hfind : st.posts.find? (fun p => p.id == pid && p.author == author.id)
      = none := by
    rw [List.find?_eq_none]
    intro p hp
    simp only [Bool.and_eq_true, beq_iff_eq, not_and]
    intro h1 h2
    exact hnopost ⟨p, hp, h1, h2⟩
  constructor
  · intro hne
    simp [post_edit, ha, hne]
  · intro heq
    simp [post_edit, ha, heq, hfind]

theorem C10_witness :
    (post_edit stW 1 "bob" 99 none).response = .redirect (.post "bob" 99) :=
  (C10_edit_order stW 1 bobW 99 none (by decide) (by decide)).1 (by decide)

end Yatube
